import Mathlib

/-!
Shallow embedding of the Az-DevOps-Dependency-Check repository
(`src/check_dependencies.py` and `src/get_dependencies.py`).

The network is modelled by oracles: the EOL registry (endoflife.date) is a
`Registry` structure whose `eol` field maps a dependency and a release cycle
to the parsed EOL date of a successful (HTTP 200) per-cycle lookup, `none`
standing for any failed lookup, and whose `product` field maps a dependency
to the list of cycle objects of a successful product lookup.  Dates are
triples (year, month, day) compared lexicographically, exactly the order of
Python `datetime.date`.  Printing is modelled by returning the list of
printed lines.
-/

/-- Calendar date, as Python `datetime.date`: compared lexicographically on
(year, month, day), rendered as zero-padded ISO `YYYY-MM-DD`. -/
structure Date where
  year : Nat
  month : Nat
  day : Nat
deriving DecidableEq

/-- The order of Python `datetime.date`: lexicographic on (year, month, day). -/
def dateLe (a b : Date) : Prop :=
  a.year < b.year ∨
    (a.year = b.year ∧
      (a.month < b.month ∨ (a.month = b.month ∧ a.day ≤ b.day)))

instance : DecidableRel dateLe := fun a b => by
  unfold dateLe; exact inferInstance

/-- Left-pad the decimal representation of a number to two digits, as in the
ISO rendering of Python dates. -/
def pad2 (n : Nat) : String :=
  if n < 10 then "0" ++ toString n else toString n

/-- Left-pad the decimal representation of a number to four digits. -/
def pad4 (n : Nat) : String :=
  if n < 10 then "000" ++ toString n
  else if n < 100 then "00" ++ toString n
  else if n < 1000 then "0" ++ toString n
  else toString n

/-- Rendering of a Python `datetime.date` by `str`, i.e. ISO `YYYY-MM-DD`. -/
def dateStr (d : Date) : String :=
  pad4 d.year ++ "-" ++ pad2 d.month ++ "-" ++ pad2 d.day

/-- One cycle object returned by the registry product endpoint
`/api/dependency.json`: its `cycle` identifier and `latest` patch version. -/
structure RegCycle where
  cycle : String
  latest : String
deriving DecidableEq

/-- Oracle for the endoflife.date registry.  `eol dep cyc` is the parsed
`eol` field of a 200 response of `/api/dep/cyc.json`, `none` for a non-200
response; `product dep` is the body of `/api/dep.json`, `none` for a non-200
response. -/
structure Registry where
  eol : String → String → Option Date
  product : String → Option (List RegCycle)

/-- Embedding of `get_eol_date` of `src/check_dependencies.py`: request the
per-cycle endpoint and return the parsed `eol` date on 200, else `None`.
The HTTP request and the strptime parse are the `Registry.eol` oracle. -/
def get_eol_date (reg : Registry) (dependency : String) (release_cycle : String) :
    Option Date :=
  reg.eol dependency release_cycle

/-- Digits of one dot-delimited segment read as a number, modelling how
`packaging.version.Version` turns a numeric release segment into an integer. -/
def parseSeg (l : List Char) : Nat :=
  l.foldl (fun n c => n * 10 + (c.toNat - 48)) 0

/-- Split a character list at every dot, as Python `str.split` on a dot. -/
def segsOf : List Char → List (List Char)
  | [] => [[]]
  | c :: cs =>
    if c = '.' then [] :: segsOf cs
    else
      match segsOf cs with
      | [] => [[c]]
      | s :: ss => (c :: s) :: ss

/-- Comparison key of `packaging.version.Version` for a plain numeric release
version: the dot-delimited numeric segments with trailing zeros removed
(packaging strips trailing zeros so that 3.8 and 3.8.0 compare equal), ordered
lexicographically. -/
def versionKey (s : String) : List Nat :=
  (((segsOf s.data).map parseSeg).reverse.dropWhile (fun n => n = 0)).reverse

/-- Descending order on cycle objects by the semantic-version key of their
`cycle` identifier: the sort relation of
`sorted(product_data, key=lambda x: Version(x["cycle"]), reverse=True)`. -/
def cycleGe (a b : RegCycle) : Prop :=
  versionKey b.cycle ≤ versionKey a.cycle

instance : DecidableRel cycleGe := fun a b => by
  unfold cycleGe; exact inferInstance

instance : IsTotal RegCycle cycleGe :=
  ⟨fun a b => (le_total (versionKey b.cycle) (versionKey a.cycle)).imp id id⟩

instance : IsTrans RegCycle cycleGe :=
  ⟨fun _ _ _ h1 h2 => le_trans h2 h1⟩

/-- Embedding of `get_latest_version` of `src/check_dependencies.py`: on a
200 product response, sort the cycle objects by semantic version of their
`cycle` field descending and take the `latest` field of the first; on a
non-200 response return `None`.  (The Python `[0]` raises `IndexError` on an
empty product list; the model returns `none` there, a case no claim uses.) -/
def get_latest_version (reg : Registry) (dependency : String) : Option String :=
  match reg.product dependency with
  | none => none
  | some product_data =>
    ((product_data.insertionSort cycleGe).head?).map (fun c => c.latest)

/-- Drop characters up to and including the first dot; helper for the
embedding of `".".join(version.rsplit(".", 1)[:-1])` below. -/
def dropSeg : List Char → List Char
  | [] => []
  | c :: cs => if c = '.' then cs else dropSeg cs

/-- Embedding of `".".join(version.rsplit(".", 1)[:-1])`: for a version
containing a dot this is everything before the last dot (drop the final
dot-delimited segment and the dot before it). -/
def beforeLastDot (v : String) : String :=
  ⟨(dropSeg v.data.reverse).reverse⟩

/-- Number of dots in a version string; the termination measure of the
recursive fallback of `check_support_status`. -/
def countDots (v : String) : Nat :=
  v.data.count '.'

/-- Number of dot-delimited segments of a version string. -/
def numSegs (v : String) : Nat :=
  (segsOf v.data).length

theorem segsOf_length (l : List Char) : (segsOf l).length = l.count '.' + 1 := by
  induction l with
  | nil => simp [segsOf]
  | cons c cs ih =>
    by_cases h : c = '.'
    · subst h; simp [segsOf, List.count_cons, ih]
    · cases hs : segsOf cs with
      | nil => simp [hs] at ih
      | cons s ss =>
        simp [segsOf, h, hs, List.count_cons] at ih ⊢
        omega

theorem numSegs_eq (v : String) : numSegs v = countDots v + 1 :=
  segsOf_length v.data

theorem dropSeg_count {l : List Char} (h : '.' ∈ l) :
    (dropSeg l).count '.' = l.count '.' - 1 := by
  induction l with
  | nil => cases h
  | cons c cs ih =>
    by_cases hc : c = '.'
    · subst hc; simp [dropSeg, List.count_cons]
    · have hmem : '.' ∈ cs := by
        cases List.mem_cons.mp h with
        | inl h1 => exact absurd h1.symm hc
        | inr h2 => exact h2
      have hpos : 0 < cs.count '.' := List.count_pos_iff.mpr hmem
      simp [dropSeg, hc, List.count_cons, ih hmem]

theorem countDots_beforeLastDot {v : String} (h : '.' ∈ v.data) :
    countDots (beforeLastDot v) < countDots v := by
  have hmemr : '.' ∈ v.data.reverse := List.mem_reverse.mpr h
  have hpos : 0 < v.data.count '.' := List.count_pos_iff.mpr h
  have : (dropSeg v.data.reverse).count '.' = v.data.reverse.count '.' - 1 :=
    dropSeg_count hmemr
  simp only [countDots, beforeLastDot, List.count_reverse] at *
  omega

/-- Embedding of `check_support_status` of `src/check_dependencies.py`: look
up the EOL date of (dependency, version); if there is none and the version
contains a dot, recurse on the version with its last dot-delimited segment
dropped; if there is none and no dot remains, return `None`; on success also
look up the latest version and return the full record.  Note the record's
version field is the `version` argument of the succeeding call, i.e. the
post-fallback version. -/
def check_support_status (reg : Registry) (dependency version env repo : String) :
    Option (String × String × Date × String × String × Option String) :=
  match get_eol_date reg dependency version with
  | none =>
    if h : '.' ∈ version.data then
      check_support_status reg dependency (beforeLastDot version) env repo
    else
      none
  | some eol =>
    some (dependency, version, eol, env, repo, get_latest_version reg dependency)
termination_by countDots version
decreasing_by exact countDots_beforeLastDot h

/-- Number of truncation steps the fallback of `check_support_status` takes
before it stops (by registry hit or by running out of dots). -/
def checkSteps (reg : Registry) (dependency version : String) : Nat :=
  match get_eol_date reg dependency version with
  | none =>
    if h : '.' ∈ version.data then
      checkSteps reg dependency (beforeLastDot version) + 1
    else
      0
  | some _ => 0
termination_by countDots version
decreasing_by exact countDots_beforeLastDot h

/-- The tuple returned by `check_support_status`:
(dependency, version, eol, env, repo, latest). -/
abbrev DepTuple := String × String × Date × String × String × Option String

/-- Dependency field of a result tuple. -/
def depOf (t : DepTuple) : String := t.1

/-- Version field of a result tuple. -/
def verOf (t : DepTuple) : String := t.2.1

/-- EOL-date field of a result tuple. -/
def eolOf (t : DepTuple) : Date := t.2.2.1

/-- Environment field of a result tuple. -/
def envOf (t : DepTuple) : String := t.2.2.2.1

/-- Repository field of a result tuple. -/
def repoOf (t : DepTuple) : String := t.2.2.2.2.1

/-- Latest-version field of a result tuple. -/
def latestOf (t : DepTuple) : Option String := t.2.2.2.2.2

/-- Aggregated value stored under `eols_dict[(dependency, version)]` in
`log_support_status`: the first record's eol and latest, and the accumulated
env and repo lists. -/
structure GroupInfo where
  eol : Date
  env : List String
  repo : List String
  latest : Option String
deriving DecidableEq

/-- Key of the grouping dictionary: the (dependency, version) pair. -/
abbrev GroupKey := String × String

/-- One iteration of the grouping loop of `log_support_status`: if the
(dependency, version) key is already present, append the record's env and
repo to that entry; otherwise add a fresh entry at the end.  The Python dict
is modelled as an association list in insertion order, which is exactly the
iteration order of a Python dict. -/
def insertEol : List (GroupKey × GroupInfo) → DepTuple → List (GroupKey × GroupInfo)
  | [], t =>
    [((depOf t, verOf t), ⟨eolOf t, [envOf t], [repoOf t], latestOf t⟩)]
  | (k, info) :: rest, t =>
    if k = (depOf t, verOf t) then
      (k, { info with env := info.env ++ [envOf t], repo := info.repo ++ [repoOf t] }) :: rest
    else
      (k, info) :: insertEol rest t

/-- The grouping dictionary `eols_dict` built by `log_support_status`. -/
def group_eols (eols : List DepTuple) : List (GroupKey × GroupInfo) :=
  eols.foldl insertEol []

/-- Embedding of Python `", ".join`. -/
def joinComma : List String → String
  | [] => ""
  | [s] => s
  | s :: b :: t => s ++ ", " ++ joinComma (b :: t)

/-- Rendering of a value in a Python f-string: `None` prints as the text
"None", a present string prints as itself. -/
def optStr : Option String → String
  | some s => s
  | none => "None"

/-- The line printed for one group by `log_support_status`: the
"will reach end of life" phrasing when the group's EOL date is today or
later, the "ran out of support" phrasing when it is strictly past. -/
def reportLine (today : Date) (dependency version : String) (info : GroupInfo) : String :=
  if dateLe today info.eol then
    dependency ++ " version " ++ version ++ " in the " ++ joinComma info.env
      ++ " environment(s)" ++ " will reach end of life on " ++ dateStr info.eol ++ "."
      ++ " Check repo(s): " ++ joinComma info.repo
      ++ ". Latest version: " ++ optStr info.latest
  else
    dependency ++ " version " ++ version ++ " in the " ++ joinComma info.env
      ++ " environment(s)" ++ " ran out of support on " ++ dateStr info.eol ++ "."
      ++ " Check repo(s): " ++ joinComma info.repo
      ++ ". Latest version: " ++ optStr info.latest

/-- Embedding of `log_support_status` of `src/check_dependencies.py`: group
the result tuples by (dependency, version) in encounter order and return the
printed line of each group, in dict iteration (= insertion) order.
`today` stands for `datetime.date.today()`. -/
def log_support_status (today : Date) (eols : List DepTuple) : List String :=
  (group_eols eols).map (fun p => reportLine today p.1.1 p.1.2 p.2)

/-- One record of the hand-off file `versions.json` read by `main` of
`src/check_dependencies.py`. -/
structure InRecord where
  dependency : String
  version : String
  env : String
  repo : String
deriving DecidableEq

/-- Sort relation of `eols.sort(key=lambda x: x[2])`: compare result tuples
by their EOL date. -/
def eolLe (a b : DepTuple) : Prop :=
  dateLe (eolOf a) (eolOf b)

instance : DecidableRel eolLe := fun a b => by
  unfold eolLe; exact inferInstance

theorem dateLe_total (a b : Date) : dateLe a b ∨ dateLe b a := by
  unfold dateLe; omega

theorem dateLe_trans {a b c : Date} (h1 : dateLe a b) (h2 : dateLe b c) :
    dateLe a c := by
  unfold dateLe at *; omega

instance : IsTotal DepTuple eolLe :=
  ⟨fun a b => dateLe_total (eolOf a) (eolOf b)⟩

instance : IsTrans DepTuple eolLe :=
  ⟨fun _ _ _ h1 h2 => dateLe_trans h1 h2⟩

/-- The list comprehension of `main` followed by the `is not None` filter:
resolve every hand-off record and keep the successful tuples. -/
def resolve_all (reg : Registry) (dependencies : List InRecord) : List DepTuple :=
  (dependencies.map
    (fun d => check_support_status reg d.dependency d.version d.env d.repo)).filterMap id

/-- Embedding of `eols.sort(key=lambda x: x[2])`: stable sort by EOL date. -/
def sort_eols (l : List DepTuple) : List DepTuple :=
  l.insertionSort eolLe

/-- The report lines printed by `log_support_status` inside `main`. -/
def report_lines (reg : Registry) (today : Date) (dependencies : List InRecord) :
    List String :=
  log_support_status today (sort_eols (resolve_all reg dependencies))

/-- Embedding of `main` of `src/check_dependencies.py`: everything printed by
one Checker run, the record-count summary line first, then the report lines. -/
def checker_main (reg : Registry) (today : Date) (dependencies : List InRecord) : List String :=
  ("Checking " ++ toString dependencies.length ++ " software versions")
    :: report_lines reg today dependencies

/-- Exceptions of `src/get_dependencies.py` that matter to the claims. -/
inductive PyError where
  | indexError
  | lookupError (msg : String)
  | valueError (msg : String)
  | keyError (key : String)
  | fileNotFoundError (msg : String)
deriving DecidableEq

/-- Helper of the embedding of Python `str.split(sep)`: scan the input left
to right, cutting at every occurrence of the non-empty separator
`c0 :: sep`; `cur` holds the reversed characters of the piece being built.
The fuel argument only forces structural recursion: every step consumes at
least one input character, so fuel equal to the input length never runs out
and the fuel-exhausted case is unreachable. -/
def splitSepAux (c0 : Char) (sep : List Char) : Nat → List Char → List Char → List (List Char)
  | _, [], cur => [cur.reverse]
  | 0, l, cur => [cur.reverse ++ l]
  | fuel + 1, d :: rest, cur =>
    if (c0 :: sep).isPrefixOf (d :: rest) then
      cur.reverse :: splitSepAux c0 sep fuel ((d :: rest).drop (sep.length + 1)) []
    else
      splitSepAux c0 sep fuel rest (d :: cur)

/-- Embedding of Python `str.split(sep)` for a non-empty separator.  (Python
raises ValueError on an empty separator; that case never occurs here.) -/
def pySplit (sep : String) (s : String) : List String :=
  match sep.data with
  | [] => [s]
  | c :: cs => (splitSepAux c cs s.data.length s.data []).map (fun l => String.mk l)

/-- Embedding of Python `sep in s` for a non-empty pattern: the pattern
occurs iff splitting on it yields more than one piece. -/
def pyContains (s pat : String) : Bool :=
  (pySplit pat s).length != 1

/-- The ASCII single-quote character. -/
def quoteChar : Char := Char.ofNat 39

/-- Embedding of Python `str.strip` with a single-quote argument: remove all
leading and trailing single quotes. -/
def stripQuotes (s : String) : String :=
  ⟨((s.data.dropWhile (fun c => c = quoteChar)).reverse.dropWhile
      (fun c => c = quoteChar)).reverse⟩

/-- Sequence a list of optional values: `some` of the values when every one
is present, `none` as soon as any is missing.  Models that a Python list
comprehension evaluates its expression on every element (raising there) before
the first element of the result is ever used. -/
def seqOpts {α : Type} : List (Option α) → Option (List α)
  | [] => some []
  | none :: _ => none
  | some a :: rest => (seqOpts rest).map (fun l => a :: l)

/-- Embedding of `get_version` of `src/get_dependencies.py`.  For `ansible`,
every line starting with the text "ansible" is split on "==" and indexed at 1
(the indexing itself can raise IndexError, before any result is returned);
the first extracted value is returned, and LookupError is raised when no line
matches.  For `terraform`, the analogous rule with the marker
`terraformVersion: BLANK` splitting and quote-stripping.  Any other software
name raises ValueError.  Lines are modelled by splitting the contents on the
newline character. -/
def get_version (software : String) (file_contents : String) : Except PyError String :=
  let lines := pySplit "\n" file_contents
  if software = "ansible" then
    match seqOpts ((lines.filter (fun l => "ansible".data.isPrefixOf l.data)).map
        (fun l => (pySplit "==" l)[1]?)) with
    | none => .error .indexError
    | some [] => .error (.lookupError "Ansible version not found in the file.")
    | some (v :: _) => .ok v
  else if software = "terraform" then
    match seqOpts ((lines.filter (fun l => pyContains l "terraformVersion: \x27")).map
        (fun l => ((pySplit ": \x27" l)[1]?).map stripQuotes)) with
    | none => .error .indexError
    | some [] => .error (.lookupError "Terraform version not found in the file.")
    | some (v :: _) => .ok v
  else
    .error (.valueError ("Unknown software: " ++ software))

/-- One entry of `environments.json`, the Collector's configuration. -/
structure EnvSpec where
  software : String
  envName : String
  repo : String
  project : Option String := none
  file_path : Option String := none
  version : Option String := none
deriving DecidableEq

/-- One record of the list the Collector appends to `data` and finally dumps
to `versions.json`; `project` is present only for remotely fetched versions. -/
structure OutRecord where
  dependency : String
  version : String
  env : String
  repo : String
  project : Option String := none
deriving DecidableEq

/-- The body of the Collector loop of `src/get_dependencies.py` for one
environment.  Without `file_path` the record is emitted from the static
declared version (a missing `version` key would raise KeyError); with
`file_path` the remote file is fetched (the `fetch` oracle stands for
`get_file_contents`, whose transport failures and non-200 responses raise
FileNotFoundError) and the version is extracted with `get_version`. -/
def processEnv (fetch : String → String → String → Except PyError String)
    (env : EnvSpec) : Except PyError OutRecord :=
  match env.file_path with
  | none =>
    match env.version with
    | none => .error (.keyError "version")
    | some v => .ok ⟨env.software, v, env.envName, env.repo, none⟩
  | some fp =>
    match env.project with
    | none => .error (.keyError "project")
    | some proj =>
      match fetch proj env.repo fp with
      | .error err => .error err
      | .ok file_content =>
        match get_version env.software file_content with
        | .error err => .error err
        | .ok version => .ok ⟨env.software, version, env.envName, env.repo, some proj⟩

/-- The Collector loop over all environments: the accumulated `data` list on
success, the first uncaught exception otherwise. -/
def collectorRun (fetch : String → String → String → Except PyError String) :
    List EnvSpec → Except PyError (List OutRecord)
  | [] => .ok []
  | env :: rest =>
    match processEnv fetch env with
    | .error err => .error err
    | .ok r =>
      match collectorRun fetch rest with
      | .error err => .error err
      | .ok rs => .ok (r :: rs)

/-- Embedding of the `__main__` block of `src/get_dependencies.py`: the
contents written to `versions.json` by `save_to_json`, or `none` when the run
died with an exception before reaching `save_to_json` (no file written). -/
def collector_main (fetch : String → String → String → Except PyError String)
    (environments : List EnvSpec) : Option (List OutRecord) :=
  (collectorRun fetch environments).toOption

instance {ε α : Type} [DecidableEq ε] [DecidableEq α] : DecidableEq (Except ε α) := fun x y =>
  match x, y with
  | .error a, .error b =>
    if h : a = b then .isTrue (congrArg Except.error h)
    else .isFalse (fun hc => h (Except.error.inj hc))
  | .ok a, .ok b =>
    if h : a = b then .isTrue (congrArg Except.ok h)
    else .isFalse (fun hc => h (Except.ok.inj hc))
  | .error _, .ok _ => .isFalse (fun hc => Except.noConfusion hc)
  | .ok _, .error _ => .isFalse (fun hc => Except.noConfusion hc)

theorem css_step (reg : Registry) (dep v env repo : String)
    (h1 : get_eol_date reg dep v = none) (h2 : '.' ∈ v.data) :
    check_support_status reg dep v env repo =
      check_support_status reg dep (beforeLastDot v) env repo := by
  conv_lhs => rw [check_support_status.eq_def]
  rw [h1]
  exact dif_pos h2

theorem css_stop (reg : Registry) (dep v env repo : String)
    (h1 : get_eol_date reg dep v = none) (h2 : '.' ∉ v.data) :
    check_support_status reg dep v env repo = none := by
  rw [check_support_status.eq_def, h1]
  exact dif_neg h2

theorem css_hit (reg : Registry) (dep v : String) (e : Date) (env repo : String)
    (h1 : get_eol_date reg dep v = some e) :
    check_support_status reg dep v env repo =
      some (dep, v, e, env, repo, get_latest_version reg dep) := by
  rw [check_support_status.eq_def, h1]

theorem cst_step (reg : Registry) (dep v : String)
    (h1 : get_eol_date reg dep v = none) (h2 : '.' ∈ v.data) :
    checkSteps reg dep v = checkSteps reg dep (beforeLastDot v) + 1 := by
  conv_lhs => rw [checkSteps.eq_def]
  rw [h1]
  exact dif_pos h2

theorem cst_stop (reg : Registry) (dep v : String)
    (h1 : get_eol_date reg dep v = none) (h2 : '.' ∉ v.data) :
    checkSteps reg dep v = 0 := by
  rw [checkSteps.eq_def, h1]
  exact dif_neg h2

theorem cst_hit (reg : Registry) (dep v : String) (e : Date)
    (h1 : get_eol_date reg dep v = some e) :
    checkSteps reg dep v = 0 := by
  rw [checkSteps.eq_def, h1]

/-- Example registry for concrete runs: python has EOL data only for cycle
3.8 (EOL 2024-10-14) and its product endpoint lists cycle 3.8 with latest
3.8.20; every other lookup fails. -/
def exReg : Registry where
  eol := fun dep cyc =>
    if dep = "python" && cyc = "3.8" then some ⟨2024, 10, 14⟩ else none
  product := fun dep =>
    if dep = "python" then some [⟨"3.8", "3.8.20"⟩] else none

theorem css_ex : check_support_status exReg "python" "3.8.1" "prod" "r1" =
    some ("python", "3.8", ⟨2024, 10, 14⟩, "prod", "r1", some "3.8.20") := by
  rw [css_step exReg "python" "3.8.1" "prod" "r1" rfl (by decide),
      show beforeLastDot "3.8.1" = "3.8" from by decide,
      css_hit exReg "python" "3.8" ⟨2024, 10, 14⟩ "prod" "r1" rfl]
  rfl

/-- C1 counterexample: on the end-to-end scenario of the claim (input record
python 3.8.1 in prod from repo r1; the registry has no 3.8.1 entry but has
3.8 with EOL 2024-10-14 and latest 3.8.20; current date past the EOL), the
Checker prints the record under the truncated version 3.8, not under the
original input version 3.8.1 as claimed. -/
theorem claim_c1_counterexample :
    checker_main exReg ⟨2025, 1, 1⟩ [⟨"python", "3.8.1", "prod", "r1"⟩] =
      ["Checking 1 software versions",
       "python version 3.8 in the prod environment(s) ran out of support on 2024-10-14. Check repo(s): r1. Latest version: 3.8.20"] ∧
    checker_main exReg ⟨2025, 1, 1⟩ [⟨"python", "3.8.1", "prod", "r1"⟩] ≠
      ["Checking 1 software versions",
       "python version 3.8.1 in the prod environment(s) ran out of support on 2024-10-14. Check repo(s): r1. Latest version: 3.8.20"] := by
  have hrun : checker_main exReg ⟨2025, 1, 1⟩ [⟨"python", "3.8.1", "prod", "r1"⟩] =
      ["Checking 1 software versions",
       "python version 3.8 in the prod environment(s) ran out of support on 2024-10-14. Check repo(s): r1. Latest version: 3.8.20"] := by
    unfold checker_main report_lines
    rw [show resolve_all exReg [⟨"python", "3.8.1", "prod", "r1"⟩] =
        [("python", "3.8", ⟨2024, 10, 14⟩, "prod", "r1", some "3.8.20")] from by
      simp [resolve_all, css_ex]]
    decide
  refine ⟨hrun, ?_⟩
  rw [hrun]
  decide

/-- C1 amended: a record whose EOL resolution required version-truncation
fallback carries the post-fallback truncated version in its result tuple, so
the report groups and prints it under the truncated version, not under the
original input version; the resolved EOL is the truncated cycle's date and
the latest version is the dependency's. -/
theorem claim_c1 (reg : Registry) (dep v env repo : String) (e : Date)
    (h1 : get_eol_date reg dep v = none) (h2 : '.' ∈ v.data)
    (h3 : get_eol_date reg dep (beforeLastDot v) = some e) :
    check_support_status reg dep v env repo =
      some (dep, beforeLastDot v, e, env, repo, get_latest_version reg dep) := by
  rw [css_step reg dep v env repo h1 h2,
      css_hit reg dep (beforeLastDot v) e env repo h3]

/-- C1 witness: the amended claim at the concrete scenario, python 3.8.1
resolved through cycle 3.8. -/
theorem claim_c1_witness :
    check_support_status exReg "python" "3.8.1" "prod" "r1" =
      some ("python", beforeLastDot "3.8.1", ⟨2024, 10, 14⟩, "prod", "r1",
        get_latest_version exReg "python") :=
  claim_c1 exReg "python" "3.8.1" "prod" "r1" ⟨2024, 10, 14⟩ rfl (by decide) rfl

/-- C2: for a multi-segment version with no registry entry of its own but
with an entry for the version with its last dot-delimited segment dropped,
`check_support_status` returns the truncated cycle's EOL date after exactly
one truncation step. -/
theorem claim_c2 (reg : Registry) (dep v env repo : String) (e : Date)
    (h1 : get_eol_date reg dep v = none) (h2 : '.' ∈ v.data)
    (h3 : get_eol_date reg dep (beforeLastDot v) = some e) :
    (check_support_status reg dep v env repo).map eolOf = some e ∧
      checkSteps reg dep v = 1 := by
  constructor
  · rw [css_step reg dep v env repo h1 h2,
        css_hit reg dep (beforeLastDot v) e env repo h3]
    rfl
  · rw [cst_step reg dep v h1 h2, cst_hit reg dep (beforeLastDot v) e h3]

/-- C2 witness: version 3.8.1 with registry data only for cycle 3.8 resolves
to the 3.8 EOL date in exactly one truncation step. -/
theorem claim_c2_witness :
    (check_support_status exReg "python" "3.8.1" "prod" "r1").map eolOf =
      some ⟨2024, 10, 14⟩ ∧
    checkSteps exReg "python" "3.8.1" = 1 :=
  claim_c2 exReg "python" "3.8.1" "prod" "r1" ⟨2024, 10, 14⟩ rfl (by decide) rfl

/-- C3: a record whose version has no dot left to drop and no registry match
resolves to `None` instead of raising, and the record contributes no report
line: the Checker's report is the same with and without it, wherever it sits
in the input. -/
theorem claim_c3 (reg : Registry) (today : Date) (dep v env repo : String)
    (h1 : '.' ∉ v.data) (h2 : get_eol_date reg dep v = none) :
    check_support_status reg dep v env repo = none ∧
    ∀ xs ys : List InRecord,
      report_lines reg today (xs ++ ⟨dep, v, env, repo⟩ :: ys) =
        report_lines reg today (xs ++ ys) := by
  have hnone := css_stop reg dep v env repo h2 h1
  refine ⟨hnone, fun xs ys => ?_⟩
  unfold report_lines resolve_all
  simp [hnone]

/-- C3 witness: a single-segment version (go 1) unknown to the registry is
dropped silently; with it placed after a resolvable python record the report
is the same as without it. -/
theorem claim_c3_witness :
    check_support_status exReg "go" "1" "prod" "r2" = none ∧
    ∀ xs ys : List InRecord,
      report_lines exReg ⟨2025, 1, 1⟩ (xs ++ ⟨"go", "1", "prod", "r2"⟩ :: ys) =
        report_lines exReg ⟨2025, 1, 1⟩ (xs ++ ys) :=
  claim_c3 exReg ⟨2025, 1, 1⟩ "go" "1" "prod" "r2" (by decide) rfl

theorem checkSteps_le_countDots (reg : Registry) (dep : String) :
    ∀ (n : Nat) (v : String), countDots v ≤ n → checkSteps reg dep v ≤ countDots v := by
  intro n
  induction n with
  | zero =>
    intro v hv
    cases h1 : get_eol_date reg dep v with
    | some e => rw [cst_hit reg dep v e h1]; exact Nat.zero_le _
    | none =>
      by_cases h2 : '.' ∈ v.data
      · have hpos : 0 < countDots v := List.count_pos_iff.mpr h2
        omega
      · rw [cst_stop reg dep v h1 h2]; exact Nat.zero_le _
  | succ n ih =>
    intro v hv
    cases h1 : get_eol_date reg dep v with
    | some e => rw [cst_hit reg dep v e h1]; exact Nat.zero_le _
    | none =>
      by_cases h2 : '.' ∈ v.data
      · rw [cst_step reg dep v h1 h2]
        have hlt := countDots_beforeLastDot h2
        have hle := ih (beforeLastDot v) (by omega)
        omega
      · rw [cst_stop reg dep v h1 h2]; exact Nat.zero_le _

/-- C8: the version-truncation fallback terminates: dropping the last
dot-delimited segment strictly reduces the number of segments, and the number
of truncation steps the recursion takes is always below the segment count of
the starting version (so it stops after at most countDots steps, at a
registry hit or at a dot-free version). -/
theorem claim_c8 :
    (∀ v : String, '.' ∈ v.data → numSegs (beforeLastDot v) < numSegs v) ∧
    (∀ (reg : Registry) (dep v : String), checkSteps reg dep v < numSegs v) := by
  constructor
  · intro v h
    have := countDots_beforeLastDot h
    rw [numSegs_eq, numSegs_eq]
    omega
  · intro reg dep v
    have := checkSteps_le_countDots reg dep (countDots v) v (le_refl _)
    rw [numSegs_eq]
    omega

/-- C8 witness: the segment-count drop at version 1.2.3 and the step bound at
the concrete python 3.8.1 run. -/
theorem claim_c8_witness :
    numSegs (beforeLastDot "1.2.3") < numSegs "1.2.3" ∧
    checkSteps exReg "python" "3.8.1" < numSegs "3.8.1" :=
  ⟨claim_c8.1 "1.2.3" (by decide), claim_c8.2 exReg "python" "3.8.1"⟩

/-- C4: two resolved records with the same (dependency, version) but
different env and repo collapse into a single report line whose environment
list and repository list contain both values, each exactly once, in the order
the records were encountered. -/
theorem claim_c4 (today : Date) (d v e1 rp1 e2 rp2 : String) (o1 o2 : Date)
    (l1 l2 : Option String) (henv : e1 ≠ e2) (hrepo : rp1 ≠ rp2) :
    log_support_status today [(d, v, o1, e1, rp1, l1), (d, v, o2, e2, rp2, l2)] =
      [reportLine today d v ⟨o1, [e1, e2], [rp1, rp2], l1⟩] := by
  simp [log_support_status, group_eols, insertEol, depOf, verOf, eolOf, envOf,
    repoOf, latestOf]

/-- C4 witness: two python 3.8 records from prod and dev yield one line with
both environments and both repositories. -/
theorem claim_c4_witness :
    log_support_status ⟨2025, 1, 1⟩
      [("python", "3.8", ⟨2024, 10, 14⟩, "prod", "r1", some "3.8.20"),
       ("python", "3.8", ⟨2024, 10, 14⟩, "dev", "r2", some "3.8.20")] =
      [reportLine ⟨2025, 1, 1⟩ "python" "3.8"
        ⟨⟨2024, 10, 14⟩, ["prod", "dev"], ["r1", "r2"], some "3.8.20"⟩] :=
  claim_c4 ⟨2025, 1, 1⟩ "python" "3.8" "prod" "r1" "dev" "r2" ⟨2024, 10, 14⟩
    ⟨2024, 10, 14⟩ (some "3.8.20") (some "3.8.20") (by decide) (by decide)

/-- C6: a group whose EOL date is today or later is reported with the
"will reach end of life on" phrasing, and a group whose EOL date is strictly
past is reported with the "ran out of support on" phrasing. -/
theorem claim_c6 (today : Date) (t : DepTuple) :
    (dateLe today (eolOf t) →
      log_support_status today [t] =
        [depOf t ++ " version " ++ verOf t ++ " in the " ++ envOf t ++
          " environment(s)" ++ " will reach end of life on " ++
          dateStr (eolOf t) ++ "." ++ " Check repo(s): " ++ repoOf t ++
          ". Latest version: " ++ optStr (latestOf t)]) ∧
    (¬ dateLe today (eolOf t) →
      log_support_status today [t] =
        [depOf t ++ " version " ++ verOf t ++ " in the " ++ envOf t ++
          " environment(s)" ++ " ran out of support on " ++
          dateStr (eolOf t) ++ "." ++ " Check repo(s): " ++ repoOf t ++
          ". Latest version: " ++ optStr (latestOf t)]) := by
  constructor <;> intro h <;>
    simp [log_support_status, group_eols, insertEol, reportLine, joinComma, h]

/-- C6 witness: the boundary case, a group whose EOL date equals the current
date, is phrased with "will reach end of life". -/
theorem claim_c6_witness :
    log_support_status ⟨2024, 10, 14⟩
      [("python", "3.8", ⟨2024, 10, 14⟩, "prod", "r1", some "3.8.20")] =
      ["python version 3.8 in the prod environment(s) will reach end of life on 2024-10-14. Check repo(s): r1. Latest version: 3.8.20"] :=
  (claim_c6 ⟨2024, 10, 14⟩
    ("python", "3.8", ⟨2024, 10, 14⟩, "prod", "r1", some "3.8.20")).1 (by decide)

theorem insertEol_eols (acc : List (GroupKey × GroupInfo)) (t : DepTuple) :
    (insertEol acc t).map (fun p => p.2.eol) = acc.map (fun p => p.2.eol) ∨
    (insertEol acc t).map (fun p => p.2.eol) =
      acc.map (fun p => p.2.eol) ++ [eolOf t] := by
  induction acc with
  | nil => right; simp [insertEol]
  | cons p rest ih =>
    obtain ⟨k, info⟩ := p
    by_cases h : k = (depOf t, verOf t)
    · left; simp [insertEol, h]
    · rcases ih with h1 | h1
      · left; simp [insertEol, h, h1]
      · right; simp [insertEol, h, h1]

theorem foldl_insertEol_sorted (l : List DepTuple) :
    ∀ acc : List (GroupKey × GroupInfo),
      List.Pairwise dateLe (acc.map (fun p => p.2.eol)) →
      List.Pairwise eolLe l →
      (∀ x ∈ acc.map (fun p => p.2.eol), ∀ t ∈ l, dateLe x (eolOf t)) →
      List.Pairwise dateLe ((l.foldl insertEol acc).map (fun p => p.2.eol)) := by
  induction l with
  | nil =>
    intro acc hacc _ _
    simpa using hacc
  | cons t rest ih =>
    intro acc hacc hl hcross
    rw [List.foldl_cons]
    have hhead := (List.pairwise_cons.mp hl).1
    have hlrest := (List.pairwise_cons.mp hl).2
    apply ih (insertEol acc t) ?_ hlrest ?_
    · rcases insertEol_eols acc t with h | h
      · rw [h]; exact hacc
      · rw [h]
        apply List.pairwise_append.mpr
        refine ⟨hacc, by simp, ?_⟩
        intro x hx y hy
        rw [List.mem_singleton] at hy
        subst hy
        exact hcross x hx t (List.mem_cons_self _ _)
    · intro x hx u hu
      rcases insertEol_eols acc t with h | h
      · rw [h] at hx
        exact hcross x hx u (List.mem_cons_of_mem _ hu)
      · rw [h] at hx
        rcases List.mem_append.mp hx with hx1 | hx2
        · exact hcross x hx1 u (List.mem_cons_of_mem _ hu)
        · rw [List.mem_singleton] at hx2
          subst hx2
          exact hhead u hu

/-- C5: the report lines of a Checker run are the groups of the
EOL-date-sorted resolved records in dictionary order, and the EOL dates of
those groups are ascending, so the lines appear soonest-expiring (or
longest-expired) first. -/
theorem claim_c5 (reg : Registry) (today : Date) (deps : List InRecord) :
    report_lines reg today deps =
      (group_eols (sort_eols (resolve_all reg deps))).map
        (fun p => reportLine today p.1.1 p.1.2 p.2) ∧
    List.Pairwise dateLe
      ((group_eols (sort_eols (resolve_all reg deps))).map (fun p => p.2.eol)) := by
  refine ⟨rfl, ?_⟩
  apply foldl_insertEol_sorted (sort_eols (resolve_all reg deps)) []
  · simp
  · exact List.sorted_insertionSort eolLe (resolve_all reg deps)
  · intro x hx
    simp at hx

/-- C7: if the Collector fails on any environment (failed fetch, unknown
software, missing version marker, or missing key), the run aborts and no
hand-off file is written; conversely the hand-off file is written only when
every environment was processed successfully. -/
theorem claim_c7 (fetch : String → String → String → Except PyError String)
    (environments : List EnvSpec) :
    (∀ env ∈ environments, (∃ err, processEnv fetch env = .error err) →
      collector_main fetch environments = none) ∧
    (∀ data, collector_main fetch environments = some data →
      ∀ env ∈ environments, ∃ r, processEnv fetch env = .ok r) := by
  induction environments with
  | nil =>
    exact ⟨fun env henv => absurd henv (List.not_mem_nil env),
      fun _ _ env henv => absurd henv (List.not_mem_nil env)⟩
  | cons e rest ih =>
    obtain ⟨ih1, ih2⟩ := ih
    constructor
    · rintro env henv ⟨err, herr⟩
      rcases List.mem_cons.mp henv with he | he
      · subst he
        simp [collector_main, collectorRun, herr, Except.toOption]
      · cases hpe : processEnv fetch e with
        | error err2 => simp [collector_main, collectorRun, hpe, Except.toOption]
        | ok r =>
          have hrest := ih1 env he ⟨err, herr⟩
          cases hcr : collectorRun fetch rest with
          | error err3 => simp [collector_main, collectorRun, hpe, hcr, Except.toOption]
          | ok rs =>
            rw [collector_main, hcr] at hrest
            simp [Except.toOption] at hrest
    · intro data hdata env henv
      cases hpe : processEnv fetch e with
      | error err2 =>
        rw [collector_main] at hdata
        simp [collectorRun, hpe, Except.toOption] at hdata
      | ok r =>
        rcases List.mem_cons.mp henv with he | he
        · subst he; exact ⟨r, hpe⟩
        · cases hcr : collectorRun fetch rest with
          | error err3 =>
            rw [collector_main] at hdata
            simp [collectorRun, hpe, hcr, Except.toOption] at hdata
          | ok rs =>
            exact ih2 rs (by simp [collector_main, hcr, Except.toOption]) env he

/-- Fetch oracle whose every request fails, as `get_file_contents` does on a
transport error or a non-200 response. -/
def fetchFail : String → String → String → Except PyError String :=
  fun _ _ file_path =>
    .error (.fileNotFoundError ("Failed to retrieve " ++ file_path ++ " file."))

/-- C7 witness: with one static environment and one fetched environment whose
fetch fails, no hand-off file is written at all. -/
theorem claim_c7_witness :
    collector_main fetchFail
      [⟨"terraform", "dev", "repo1", none, none, some "1.1.7"⟩,
       ⟨"ansible", "prod", "repo2", some "proj", some "requirements.txt", none⟩] =
      none :=
  (claim_c7 fetchFail
      [⟨"terraform", "dev", "repo1", none, none, some "1.1.7"⟩,
       ⟨"ansible", "prod", "repo2", some "proj", some "requirements.txt", none⟩]).1
    ⟨"ansible", "prod", "repo2", some "proj", some "requirements.txt", none⟩
    (by decide)
    ⟨.fileNotFoundError "Failed to retrieve requirements.txt file.", by decide⟩

/-- C9: when the product endpoint answers with a non-empty cycle list,
`get_latest_version` returns the `latest` field of a listed cycle whose
`cycle` identifier is greatest under the semantic-version order (the
lexicographic order of the parsed numeric segment lists, not the lexical
string order); on a non-200 response it returns `None`. -/
theorem claim_c9 (reg : Registry) (dep : String) :
    (reg.product dep = none → get_latest_version reg dep = none) ∧
    (∀ l : List RegCycle, reg.product dep = some l → l ≠ [] →
      ∃ c ∈ l, get_latest_version reg dep = some c.latest ∧
        ∀ d ∈ l, versionKey d.cycle ≤ versionKey c.cycle) := by
  constructor
  · intro h
    unfold get_latest_version
    rw [h]
  · intro l hl hne
    have hperm := List.perm_insertionSort cycleGe l
    cases hs : l.insertionSort cycleGe with
    | nil =>
      rw [hs] at hperm
      exact absurd (hperm.symm.eq_nil) hne
    | cons c0 tail =>
      have hsorted := List.sorted_insertionSort cycleGe l
      rw [hs] at hsorted hperm
      refine ⟨c0, hperm.mem_iff.mp (List.mem_cons_self _ _), ?_, ?_⟩
      · unfold get_latest_version
        rw [hl]
        show ((l.insertionSort cycleGe).head?).map (fun c => c.latest) = some c0.latest
        rw [hs]
        rfl
      · intro d hd
        rcases List.mem_cons.mp (hperm.mem_iff.mpr hd) with h | h
        · subst h; exact le_refl _
        · exact List.rel_of_sorted_cons hsorted d h

/-- Registry whose terraform product endpoint lists cycles 3.9 and 3.10;
under lexical string comparison 3.9 would be the greatest cycle, under
semantic-version comparison 3.10 is. -/
def exReg2 : Registry where
  eol := fun _ _ => none
  product := fun dep =>
    if dep = "terraform" then some [⟨"3.9", "3.9.18"⟩, ⟨"3.10", "3.10.13"⟩]
    else none

/-- C9 witness: the picked cycle is 3.10 (latest 3.10.13), not the lexically
greater string 3.9. -/
theorem claim_c9_witness :
    get_latest_version exReg2 "terraform" = some "3.10.13" ∧
    ∃ c ∈ [RegCycle.mk "3.9" "3.9.18", RegCycle.mk "3.10" "3.10.13"],
      get_latest_version exReg2 "terraform" = some c.latest ∧
        ∀ d ∈ [RegCycle.mk "3.9" "3.9.18", RegCycle.mk "3.10" "3.10.13"],
          versionKey d.cycle ≤ versionKey c.cycle :=
  ⟨by decide, (claim_c9 exReg2 "terraform").2
    [⟨"3.9", "3.9.18"⟩, ⟨"3.10", "3.10.13"⟩] rfl (by decide)⟩

/-- C10: `get_version` for ansible raises an exception other than the
documented LookupError and ValueError: a line starting with "ansible" but
lacking the "==" separator makes the per-line split-and-index raise
IndexError even though an earlier well-formed line, on its own, would have
yielded a version, because the comprehension evaluates the indexing for
every matching line before the first result is taken. -/
theorem claim_c10 :
    get_version "ansible" ("ansible==2.9.1" ++ "\n" ++ "ansible") =
      .error .indexError ∧
    get_version "ansible" "ansible==2.9.1" = .ok "2.9.1" ∧
    ∀ msg : String,
      (Except.error PyError.indexError : Except PyError String) ≠
        .error (.lookupError msg) ∧
      (Except.error PyError.indexError : Except PyError String) ≠
        .error (.valueError msg) := by
  refine ⟨by decide, by decide, fun msg => ⟨?_, ?_⟩⟩ <;> simp
